import Mathlib

set_option maxHeartbeats 1000000

/-!
Verification of the OTA demo firmware-update web server (main/web_server.c).

The development shallowly embeds the update pipeline of upload_post_handler:
the partition layer (esp_ota_begin / esp_ota_write / esp_ota_abort /
esp_ota_end / esp_ota_set_boot_partition) is an external collaborator, so its
calls are recorded as events and its success or failure is drawn from an
environment record; the handler's own control flow is translated line by
line from the C source.  The reboot task, the URI unescaper and the settings
handlers are embedded likewise.
-/

/-- Result of one httpd_req_recv call inside the receive loop: an error
return (bytes_read at most zero), or delivered data whose bytes_read is the
length of the byte list. -/
inductive RecvR where
  | err : RecvR
  | data : List Nat → RecvR
deriving DecidableEq

/-- Observable actions of one run of upload_post_handler.  An otaWrite event
carries the byte count, the result the partition layer returned, and whether
the C code checks that result (the write of the first chunk at line 323 and
the write at line 331 are checked; the write at line 339 is not).
deadZeroWrite marks entry into the bytes_read == 0 sub-branch of the
non-first-chunk path (lines 330-338 of web_server.c). -/
inductive Ev where
  | otaBegin : Bool → Ev
  | recv : Nat → Ev
  | recvErr : Ev
  | otaWrite : Nat → Bool → Bool → Ev
  | deadZeroWrite : Ev
  | otaAbort : Ev
  | otaEnd : Bool → Ev
  | setBoot : Nat → Bool → Ev
  | resp : String → Ev
  | task : Ev
deriving DecidableEq

/-- Result of the receive loop: either a failure return out of the loop, or
normal loop exit with the final received count.  Both carry the events of
the loop and the list of values `received` took after each completed
iteration (line 342). -/
inductive LoopOut where
  | failed : List Ev → List Nat → LoopOut
  | finished : List Ev → Nat → List Nat → LoopOut
deriving DecidableEq

def LoopOut.evs : LoopOut → List Ev
  | .failed e _ => e
  | .finished e _ _ => e

def LoopOut.hist : LoopOut → List Nat
  | .failed _ h => h
  | .finished _ _ h => h

def LoopOut.isFailed : LoopOut → Bool
  | .failed _ _ => true
  | .finished _ _ _ => false

/-- Prefix the events and history of one loop iteration onto the result of
the remaining iterations. -/
def LoopOut.pre (e0 : List Ev) (h0 : List Nat) : LoopOut → LoopOut
  | .failed e h => .failed (e0 ++ e) (h0 ++ h)
  | .finished e r h => .finished (e0 ++ e) r (h0 ++ h)

/-- strstr(buf, CRLF CRLF) over the delivered bytes of the first chunk
(line 313): index of the first occurrence of 13,10,13,10, scanning only up
to a zero byte, as strstr stops at the C string terminator. -/
def findCRLF2 : List Nat → Option Nat
  | 13 :: 10 :: 13 :: 10 :: _ => some 0
  | [] => none
  | 0 :: _ => none
  | _ :: rest => (findCRLF2 rest).map (· + 1)

/-- The receive loop of upload_post_handler, lines 303-343 of web_server.c.
Arguments after wOk (result of the n-th esp_ota_write call) and total
(req content_len): remaining recv results, received, first_chunk, and the
count of esp_ota_write calls made so far.  An exhausted trace stands for a
recv that can only fail. -/
def recvLoop (wOk : Nat → Bool) (total : Nat) :
    List RecvR → Nat → Bool → Nat → LoopOut
  | [], received, _, _ =>
      if received < total then LoopOut.failed [Ev.recvErr, Ev.otaAbort] []
      else LoopOut.finished [] received []
  | RecvR.err :: _, received, _, _ =>
      if received < total then LoopOut.failed [Ev.recvErr, Ev.otaAbort] []
      else LoopOut.finished [] received []
  | RecvR.data bs :: rest, received, isFirst, wIdx =>
      if received < total then
        if bs.length = 0 then LoopOut.failed [Ev.recv 0, Ev.otaAbort] []
        else if isFirst then
          match findCRLF2 bs with
          | none => LoopOut.failed [Ev.recv bs.length, Ev.otaAbort] []
          | some idx =>
            if 0 < bs.length - (idx + 4) then
              if wOk wIdx then
                LoopOut.pre [Ev.recv bs.length, Ev.otaWrite (bs.length - (idx + 4)) true true]
                  [received + bs.length]
                  (recvLoop wOk total rest (received + bs.length) false (wIdx + 1))
              else
                LoopOut.failed
                  [Ev.recv bs.length, Ev.otaWrite (bs.length - (idx + 4)) false true, Ev.otaAbort] []
            else
              LoopOut.pre [Ev.recv bs.length] [received + bs.length]
                (recvLoop wOk total rest (received + bs.length) false wIdx)
        else
          if bs.length = 0 then
            if wOk wIdx then
              LoopOut.failed [Ev.recv 0, Ev.deadZeroWrite, Ev.otaWrite 0 true true, Ev.otaAbort] []
            else
              LoopOut.failed [Ev.recv 0, Ev.deadZeroWrite, Ev.otaWrite 0 false true, Ev.otaAbort] []
          else
            LoopOut.pre [Ev.recv bs.length, Ev.otaWrite bs.length (wOk wIdx) false]
              [received + bs.length]
              (recvLoop wOk total rest (received + bs.length) false (wIdx + 1))
      else LoopOut.finished [] received []

/-- Environment of one upload session: which external calls succeed, the
identity of the update partition, the declared content length and the recv
results the transport delivers. -/
structure Env where
  partsOk : Bool
  updatePart : Nat
  beginOk : Bool
  contentLen : Nat
  trace : List RecvR
  writeOk : Nat → Bool
  endOk : Bool
  setBootOk : Bool

/-- Outcome of one run of upload_post_handler: the esp_err_t return (true
for ESP_OK), the event list, the persisted boot pointer after the run, and
the per-iteration received history. -/
structure Outcome where
  ok : Bool
  events : List Ev
  boot : Nat
  hist : List Nat
deriving DecidableEq

def uploadOkMsg : String := "Upload successful! Rebooting..."

/-- upload_post_handler (web_server.c lines 253-391), with boot0 the
persisted boot pointer before the session.  The partition NULL check is
partsOk; the esp_ota_get_partition_description blocks only log and the
version-rejection blocks are compiled out, so neither appears.  A failing
esp_ota_set_boot_partition leaves the pointer unchanged (the spec documents
the boot-pointer write as a single atomic write). -/
def upload_post_handler (env : Env) (boot0 : Nat) : Outcome :=
  if env.partsOk = false then { ok := false, events := [], boot := boot0, hist := [] }
  else if env.beginOk = false then
    { ok := false, events := [Ev.otaBegin false], boot := boot0, hist := [] }
  else
    match recvLoop env.writeOk env.contentLen env.trace 0 true 0 with
    | LoopOut.failed evs h =>
      { ok := false, events := Ev.otaBegin true :: evs, boot := boot0, hist := h }
    | LoopOut.finished evs received h =>
      if received ≠ env.contentLen then
        { ok := false, events := Ev.otaBegin true :: (evs ++ [Ev.otaAbort]),
          boot := boot0, hist := h }
      else if env.endOk = false then
        { ok := false, events := Ev.otaBegin true :: (evs ++ [Ev.otaEnd false]),
          boot := boot0, hist := h }
      else if env.setBootOk = false then
        { ok := false,
          events := Ev.otaBegin true ::
            (evs ++ [Ev.otaEnd true, Ev.setBoot env.updatePart false]),
          boot := boot0, hist := h }
      else
        { ok := true,
          events := Ev.otaBegin true ::
            (evs ++ [Ev.otaEnd true, Ev.setBoot env.updatePart true,
              Ev.resp uploadOkMsg, Ev.task]),
          boot := env.updatePart, hist := h }

/-- The httpd_req_recv contract of the transport: a delivered chunk never
exceeds the 1024-byte buffer nor the remaining declared content length. -/
def clampedB : Nat → List RecvR → Bool
  | _, [] => true
  | _, RecvR.err :: _ => true
  | rem, RecvR.data bs :: t =>
      decide (bs.length ≤ 1024) && decide (bs.length ≤ rem) && clampedB (rem - bs.length) t

/-- Events a loop iteration may emit.  otaBegin, otaEnd, setBoot, resp and
task happen outside the loop only; deadZeroWrite is emitted by no reachable
path. -/
def Ev.isLoopEv : Ev → Bool
  | .recv _ => true
  | .recvErr => true
  | .otaWrite _ _ _ => true
  | .otaAbort => true
  | _ => false

/-- Events compatible with a non-failed loop: data receipts, checked writes
that succeeded, and unchecked writes with either result. -/
def Ev.isCleanEv : Ev → Bool
  | .recv _ => true
  | .otaWrite _ _ false => true
  | .otaWrite _ true true => true
  | _ => false

/-- Actions of reboot_task (web_server.c lines 88-111), in order: grace
delay, httpd_stop when the server handle is set, esp_wifi_stop, a second
delay, then esp_restart_noos. -/
inductive RebootEv where
  | delayMs : Nat → RebootEv
  | httpdStop : RebootEv
  | wifiStop : RebootEv
  | restart : RebootEv
deriving DecidableEq

def reboot_task (serverUp : Bool) : List RebootEv :=
  RebootEv.delayMs 500 ::
    ((if serverUp then [RebootEv.httpdStop] else []) ++
      [RebootEv.wifiStop, RebootEv.delayMs 500, RebootEv.restart])

/-- isxdigit of ctype.h over a byte value (line 62 uses it on the two
characters after a percent sign). -/
def isxdigitB (b : Nat) : Bool :=
  (decide (48 ≤ b) && decide (b ≤ 57)) ||
  (decide (97 ≤ b) && decide (b ≤ 102)) ||
  (decide (65 ≤ b) && decide (b ≤ 70))

/-- Value of one hexadecimal digit byte, as strtol base 16 reads it. -/
def hexValB (b : Nat) : Nat :=
  if b ≤ 57 then b - 48 else if b ≤ 70 then b - 55 else b - 87

/-- The while loop of httpd_unescape_uri (lines 61-72): limit is
dest_size - 1, the source is the bytes before the terminator, di the write
index.  Returns the bytes written and the final di.  37 is the percent
sign, 43 the plus sign, 32 the space. -/
def unescapeGo (limit : Nat) : List Nat → Nat → List Nat × Nat
  | [], di => ([], di)
  | 37 :: h1 :: h2 :: rest, di =>
    if di < limit then
      if isxdigitB h1 && isxdigitB h2 then
        let r := unescapeGo limit rest (di + 1)
        ((hexValB h1 * 16 + hexValB h2) :: r.1, r.2)
      else
        let r := unescapeGo limit (h1 :: h2 :: rest) (di + 1)
        (37 :: r.1, r.2)
    else ([], di)
  | 43 :: rest, di =>
    if di < limit then
      let r := unescapeGo limit rest (di + 1)
      (32 :: r.1, r.2)
    else ([], di)
  | b :: rest, di =>
    if di < limit then
      let r := unescapeGo limit rest (di + 1)
      (b :: r.1, r.2)
    else ([], di)

/-- httpd_unescape_uri (web_server.c lines 58-75): the destination buffer
content including the terminating zero written at dest[di] (line 73), and
the ssize_t return value di (line 74). -/
def httpd_unescape_uri (src : List Nat) (destSize : Nat) : List Nat × Int :=
  ((unescapeGo (destSize - 1) src 0).1 ++ [0],
   Int.ofNat (unescapeGo (destSize - 1) src 0).2)

/-- Modelled from the spec: the settings store (settings.c is referenced by
the build but absent from the sources) exposes get and set of a persisted
numeric setting for the key serial. -/
structure SettingsStore where
  serialNbr : Nat
deriving DecidableEq

/-- Modelled from the spec: set_serial_nbr persists the numeric serial
setting.  Its C argument is unsigned long (32 bits on this target), so the
value is reduced modulo 2^32. -/
def set_serial_nbr (v : Int) (st : SettingsStore) : SettingsStore :=
  { st with serialNbr := (v % ((2 : Int) ^ 32)).toNat }

/-- Modelled from the spec: get_serial_nbr reads back the persisted numeric
serial setting. -/
def get_serial_nbr (st : SettingsStore) : Nat :=
  st.serialNbr

/-- httpd_query_key_value of the esp_http_server collaborator, modelled from
its contract: in a form-encoded key=value list separated by ampersands,
the value of the given key. -/
def httpd_query_key_value (qry key : List Char) : Option (List Char) :=
  if (key ++ ['=']).isPrefixOf qry then
    some ((qry.drop (key.length + 1)).takeWhile (fun c => !(c == '&')))
  else
    match h : qry.dropWhile (fun c => !(c == '&')) with
    | [] => none
    | _ :: rest => httpd_query_key_value rest key
termination_by qry.length
decreasing_by
  have key : ∀ (l : List Char), (l.dropWhile (fun c => !(c == '&'))).length ≤ l.length := by
    intro l
    induction l with
    | nil => simp [List.dropWhile]
    | cons a t ih =>
      simp only [List.dropWhile, List.length_cons]
      split
      · omega
      · simp
  have hle := key qry
  rw [h] at hle
  simp only [List.length_cons] at hle
  omega

/-- Characters isspace of ctype.h accepts, which atol skips. -/
def isSpaceCh (c : Char) : Bool :=
  (c == ' ') || (c == '\t') || (c == '\n') || (c == '\x0b') || (c == '\x0c') || (c == '\r')

/-- Digit-accumulation phase of atol: stop at the first non-digit. -/
def atolDigits : List Char → Nat → Nat
  | [], acc => acc
  | c :: rest, acc =>
      if c.isDigit then atolDigits rest (acc * 10 + (c.toNat - 48)) else acc

/-- atol of libc, modelled from its contract: skip leading spaces, read an
optional sign, then decimal digits.  Values beyond the long range are out
of contract and are excluded by the theorems' hypotheses. -/
def atol (s : List Char) : Int :=
  match s.dropWhile isSpaceCh with
  | '-' :: r => -(Int.ofNat (atolDigits r 0))
  | '+' :: r => Int.ofNat (atolDigits r 0)
  | r => Int.ofNat (atolDigits r 0)

/-- The key the settings POST handler recognizes (line 531). -/
def serialKey : List Char := ['s', 'e', 'r', 'i', 'a', 'l']

/-- settings_post_handler (web_server.c lines 521-553): receive at most 511
bytes of body, look up the serial key, store atol of its value when the
value fits the 64-byte buffer; the saved-page response and ESP_OK follow in
every non-error case.  Returns the esp_err_t and the settings store after
the request. -/
def settings_post_handler (body : List Char) (st : SettingsStore) :
    Bool × SettingsStore :=
  if body.length = 0 then (false, st)
  else
    match httpd_query_key_value (body.take 511) serialKey with
    | some v =>
      if v.length < 64 then (true, set_serial_nbr (atol v) st)
      else (true, st)
    | none => (true, st)

/-- settings_get_handler (web_server.c lines 406-479): the numeric value the
handler reads through get_serial_nbr and interpolates into the settings
form it renders. -/
def settings_get_handler (st : SettingsStore) : Nat :=
  get_serial_nbr st

/-- Positional decimal value of a digit string: the numeric value a body
key carries. -/
def digitsVal (ds : List Char) : Nat :=
  ds.foldl (fun a c => a * 10 + (c.toNat - 48)) 0

/-- A fully successful upload session: one six-byte chunk whose first four
bytes are the multipart blank line, declared length six. -/
def envOkRun : Env :=
  { partsOk := true, updatePart := 1, beginOk := true, contentLen := 6,
    trace := [RecvR.data [13, 10, 13, 10, 7, 8]], writeOk := fun _ => true,
    endOk := true, setBootOk := true }

/-- A session whose second esp_ota_write call (the unchecked one at line
339) fails while every other external call succeeds. -/
def envWriteFail : Env :=
  { partsOk := true, updatePart := 1, beginOk := true, contentLen := 9,
    trace := [RecvR.data [13, 10, 13, 10, 1], RecvR.data [6, 7, 8, 9]],
    writeOk := fun i => i == 0, endOk := true, setBootOk := true }

/-- A session whose first chunk carries no blank-line boundary. -/
def envNoBoundary : Env :=
  { partsOk := true, updatePart := 1, beginOk := true, contentLen := 10,
    trace := [RecvR.data [65, 66, 67]], writeOk := fun _ => true,
    endOk := true, setBootOk := true }

/-- A session where esp_ota_begin itself fails. -/
def envBeginFail : Env :=
  { partsOk := true, updatePart := 1, beginOk := false, contentLen := 6,
    trace := [RecvR.data [13, 10, 13, 10, 7, 8]], writeOk := fun _ => true,
    endOk := true, setBootOk := true }

theorem LoopOut.evs_pre (a : List Ev) (h : List Nat) (o : LoopOut) :
    (LoopOut.pre a h o).evs = a ++ o.evs := by
  cases o <;> rfl

theorem LoopOut.hist_pre (a : List Ev) (h : List Nat) (o : LoopOut) :
    (LoopOut.pre a h o).hist = h ++ o.hist := by
  cases o <;> rfl

theorem LoopOut.isFailed_pre (a : List Ev) (h : List Nat) (o : LoopOut) :
    (LoopOut.pre a h o).isFailed = o.isFailed := by
  cases o <;> rfl

/-- Every event the receive loop emits is a loop event: in particular the
loop never emits deadZeroWrite, otaBegin, otaEnd, setBoot, resp or task. -/
theorem recvLoop_evs_loop (wOk : Nat → Bool) (total : Nat) :
    ∀ (trace : List RecvR) (received : Nat) (isFirst : Bool) (wIdx : Nat),
      ((recvLoop wOk total trace received isFirst wIdx).evs.all Ev.isLoopEv) = true := by
  intro trace
  induction trace with
  | nil => intro r f w; simp only [recvLoop]; split <;> rfl
  | cons head rest ih =>
    intro r f w
    cases head with
    | err => simp only [recvLoop]; split <;> rfl
    | data bs =>
      simp only [recvLoop]
      repeat' split
      all_goals
        try simp only [LoopOut.evs_pre]
        first
        | (simp only [List.all_append]
           rw [Bool.and_eq_true]
           exact ⟨by simp [Ev.isLoopEv], ih _ _ _⟩)
        | simp_all [LoopOut.evs, Ev.isLoopEv]

/-- Every failure return out of the receive loop has called esp_ota_abort:
lines 307, 316, 325, 333 and 336 all abort before returning ESP_FAIL. -/
theorem recvLoop_failed_abort (wOk : Nat → Bool) (total : Nat) :
    ∀ (trace : List RecvR) (received : Nat) (isFirst : Bool) (wIdx : Nat),
      (recvLoop wOk total trace received isFirst wIdx).isFailed = true →
      Ev.otaAbort ∈ (recvLoop wOk total trace received isFirst wIdx).evs := by
  intro trace
  induction trace with
  | nil =>
    intro r f w
    simp only [recvLoop]
    split <;> simp [LoopOut.isFailed, LoopOut.evs]
  | cons head rest ih =>
    cases head with
    | err =>
      intro r f w
      simp only [recvLoop]
      split <;> simp [LoopOut.isFailed, LoopOut.evs]
    | data bs =>
      intro r f w
      simp only [recvLoop]
      repeat' split
      all_goals try simp only [LoopOut.isFailed_pre, LoopOut.evs_pre]
      all_goals
        first
        | (intro hf
           exact List.mem_append_right _ (ih _ _ _ hf))
        | simp [LoopOut.isFailed, LoopOut.evs]
        | simp_all

/-- A loop that exits normally emitted only clean events: every checked
esp_ota_write in it succeeded, and it never called esp_ota_abort nor saw a
recv error. -/
theorem recvLoop_finished_clean (wOk : Nat → Bool) (total : Nat) :
    ∀ (trace : List RecvR) (received : Nat) (isFirst : Bool) (wIdx : Nat),
      (recvLoop wOk total trace received isFirst wIdx).isFailed = false →
      ((recvLoop wOk total trace received isFirst wIdx).evs.all Ev.isCleanEv) = true := by
  intro trace
  induction trace with
  | nil =>
    intro r f w
    simp only [recvLoop]
    split <;> simp [LoopOut.isFailed, LoopOut.evs]
  | cons head rest ih =>
    cases head with
    | err =>
      intro r f w
      simp only [recvLoop]
      split <;> simp [LoopOut.isFailed, LoopOut.evs]
    | data bs =>
      intro r f w
      simp only [recvLoop]
      repeat' split
      all_goals try simp only [LoopOut.isFailed_pre, LoopOut.evs_pre]
      all_goals
        first
        | (intro hf
           simp only [List.all_append]
           rw [Bool.and_eq_true]
           exact ⟨by simp [Ev.isCleanEv], ih _ _ _ hf⟩)
        | simp [LoopOut.isFailed, LoopOut.evs]
        | simp_all

/-- Under the transport contract (clampedB), every value the running total
takes after a completed iteration stays at most the declared length. -/
theorem recvLoop_hist_le (wOk : Nat → Bool) (total : Nat) :
    ∀ (trace : List RecvR) (received : Nat) (isFirst : Bool) (wIdx : Nat),
      received ≤ total → clampedB (total - received) trace = true →
      ∀ x ∈ (recvLoop wOk total trace received isFirst wIdx).hist, x ≤ total := by
  intro trace
  induction trace with
  | nil =>
    intro r f w _ _
    simp only [recvLoop]
    split <;> simp [LoopOut.hist]
  | cons head rest ih =>
    cases head with
    | err =>
      intro r f w _ _
      simp only [recvLoop]
      split <;> simp [LoopOut.hist]
    | data bs =>
      intro r f w hr hcl
      simp only [clampedB, Bool.and_eq_true, decide_eq_true_eq] at hcl
      obtain ⟨⟨h1024, hrem⟩, hcl2⟩ := hcl
      have hsum : r + bs.length ≤ total := by omega
      have hsub : total - r - bs.length = total - (r + bs.length) := by omega
      rw [hsub] at hcl2
      simp only [recvLoop]
      repeat' split
      all_goals try simp only [LoopOut.hist_pre]
      all_goals
        first
        | (intro x hx
           rcases List.mem_append.mp hx with hx1 | hx2
           · simp at hx1; omega
           · exact ih _ _ _ hsum hcl2 x hx2)
        | simp [LoopOut.hist]
        | simp_all

/-- Claim C1: when upload_post_handler returns success the persisted boot
pointer equals the update partition written in that session; on every
failure return the boot pointer is unchanged from its value before the
session started. -/
theorem upload_boot_switch_correct (env : Env) (boot0 : Nat) :
    ((upload_post_handler env boot0).ok = true →
      (upload_post_handler env boot0).boot = env.updatePart) ∧
    ((upload_post_handler env boot0).ok = false →
      (upload_post_handler env boot0).boot = boot0) := by
  unfold upload_post_handler
  repeat' split
  all_goals simp

theorem upload_boot_switch_correct_witness :
    (upload_post_handler envOkRun 5).ok = true ∧
    (upload_post_handler envOkRun 5).boot = 1 :=
  ⟨by decide, (upload_boot_switch_correct envOkRun 5).1 (by decide)⟩

/-- Claim C9: the bytes_read == 0 sub-branch of the non-first-chunk path
(lines 330-338, a checked write followed by abort) is dead code: no run of
upload_post_handler ever reaches it, because any bytes_read of zero or
less already aborted and returned at lines 305-309 of the same
iteration. -/
theorem upload_dead_branch_unreachable (env : Env) (boot0 : Nat) :
    (upload_post_handler env boot0).events.count Ev.deadZeroWrite = 0 := by
  have hall := recvLoop_evs_loop env.writeOk env.contentLen env.trace 0 true 0
  rw [List.all_eq_true] at hall
  have hdead : Ev.deadZeroWrite ∉ (recvLoop env.writeOk env.contentLen env.trace 0 true 0).evs := by
    intro hmem
    have hl := hall _ hmem
    simp [Ev.isLoopEv] at hl
  have hcnt : (recvLoop env.writeOk env.contentLen env.trace 0 true 0).evs.count Ev.deadZeroWrite = 0 :=
    List.count_eq_zero.mpr hdead
  unfold upload_post_handler
  repeat' split
  all_goals simp_all [LoopOut.evs, List.count_cons, List.count_append]

/-- Claim C6: under the transport read contract (a chunk never exceeds the
buffer size nor the remaining declared length), after every completed
chunk-receive step the running total bytes_received is at most the declared
bytes_expected. -/
theorem upload_received_le_expected (env : Env) (boot0 : Nat)
    (hcl : clampedB env.contentLen env.trace = true) :
    ∀ x ∈ (upload_post_handler env boot0).hist, x ≤ env.contentLen := by
  have hh := recvLoop_hist_le env.writeOk env.contentLen env.trace 0 true 0
    (Nat.zero_le _) (by simpa using hcl)
  unfold upload_post_handler
  repeat' split
  all_goals simp_all [LoopOut.hist]

theorem upload_received_le_expected_witness :
    clampedB envOkRun.contentLen envOkRun.trace = true ∧ 6 ≤ envOkRun.contentLen :=
  ⟨by decide, upload_received_le_expected envOkRun 0 (by decide) 6 (by decide)⟩

/-- Claim C8: reboot_task acts in a fixed order: the grace delay comes
first, the hardware reset comes last, the WiFi stop precedes the reset,
and when the server handle is set the HTTP server stop happens and
precedes the WiFi stop; so the reset never precedes stopping the listener
or the radio. -/
theorem reboot_task_order (serverUp : Bool) :
    (reboot_task serverUp).head? = some (RebootEv.delayMs 500) ∧
    (reboot_task serverUp).getLast? = some RebootEv.restart ∧
    RebootEv.restart ∉ (reboot_task serverUp).dropLast ∧
    (reboot_task serverUp).indexOf RebootEv.wifiStop <
      (reboot_task serverUp).indexOf RebootEv.restart ∧
    (serverUp = true →
      RebootEv.httpdStop ∈ reboot_task serverUp ∧
      (reboot_task serverUp).indexOf RebootEv.httpdStop <
        (reboot_task serverUp).indexOf RebootEv.wifiStop) := by
  cases serverUp <;> decide

theorem cons_append_tail2 {A : Type} (a e1 e2 r t : A) (l : List A) :
    ∃ p, a :: (l ++ [e1, e2, r, t]) = p ++ [r, t] :=
  ⟨a :: (l ++ [e1, e2]), by simp⟩

/-- Claim C4: a reboot task is created exactly when the session succeeded;
on success exactly one task is created and it comes after the success
response was issued; on every failure return no task is created. -/
theorem upload_reboot_iff_done (env : Env) (boot0 : Nat) :
    ((upload_post_handler env boot0).ok = true →
      (upload_post_handler env boot0).events.count Ev.task = 1 ∧
      ∃ p, (upload_post_handler env boot0).events = p ++ [Ev.resp uploadOkMsg, Ev.task]) ∧
    ((upload_post_handler env boot0).ok = false →
      (upload_post_handler env boot0).events.count Ev.task = 0) := by
  have hall := recvLoop_evs_loop env.writeOk env.contentLen env.trace 0 true 0
  rw [List.all_eq_true] at hall
  have htask : Ev.task ∉ (recvLoop env.writeOk env.contentLen env.trace 0 true 0).evs := by
    intro hmem
    have hl := hall _ hmem
    simp [Ev.isLoopEv] at hl
  have hcnt : (recvLoop env.writeOk env.contentLen env.trace 0 true 0).evs.count Ev.task = 0 :=
    List.count_eq_zero.mpr htask
  rcases heq : recvLoop env.writeOk env.contentLen env.trace 0 true 0 with
    ⟨evs, hist⟩ | ⟨evs, rcv, hist⟩
  · have hcnt2 : evs.count Ev.task = 0 := by
      rw [heq] at hcnt; simpa [LoopOut.evs] using hcnt
    unfold upload_post_handler
    rw [heq]
    repeat' split
    all_goals constructor <;> intro hok <;>
      simp_all [List.count_cons, List.count_append]
  · have hcnt2 : evs.count Ev.task = 0 := by
      rw [heq] at hcnt; simpa [LoopOut.evs] using hcnt
    unfold upload_post_handler
    rw [heq]
    repeat' split
    all_goals constructor
    all_goals intro hok
    all_goals try simp_all [List.count_cons, List.count_append]
    exact cons_append_tail2 _ _ _ _ _ _

theorem upload_reboot_iff_done_witness :
    (upload_post_handler envOkRun 0).events.count Ev.task = 1 :=
  ((upload_reboot_iff_done envOkRun 0).1 (by decide)).1

theorem upload_begin_failure (env : Env) (boot0 : Nat)
    (hp : env.partsOk = true) (hb : env.beginOk = false) :
    upload_post_handler env boot0 =
      { ok := false, events := [Ev.otaBegin false], boot := boot0, hist := [] } := by
  unfold upload_post_handler
  simp [hp, hb]

theorem upload_checked_write_failure (env : Env) (boot0 : Nat) (n : Nat)
    (hmem : Ev.otaWrite n false true ∈ (upload_post_handler env boot0).events) :
    (upload_post_handler env boot0).ok = false ∧
    Ev.otaAbort ∈ (upload_post_handler env boot0).events := by
  have habort := recvLoop_failed_abort env.writeOk env.contentLen env.trace 0 true 0
  have hclean := recvLoop_finished_clean env.writeOk env.contentLen env.trace 0 true 0
  rcases heq : recvLoop env.writeOk env.contentLen env.trace 0 true 0 with
    ⟨evs, hist⟩ | ⟨evs, rcv, hist⟩
  · rw [heq] at habort
    simp only [LoopOut.isFailed, LoopOut.evs] at habort
    have habort2 : Ev.otaAbort ∈ evs := habort trivial
    unfold upload_post_handler at hmem ⊢
    rw [heq] at hmem ⊢
    simp only [] at hmem ⊢
    repeat' split at hmem
    · simp at hmem
    · simp at hmem
    · simp_all [habort2]
  · rw [heq] at hclean
    simp only [LoopOut.isFailed, LoopOut.evs] at hclean
    have hclean2 := hclean trivial
    rw [List.all_eq_true] at hclean2
    unfold upload_post_handler at hmem ⊢
    rw [heq] at hmem ⊢
    simp only [] at hmem ⊢
    repeat' split at hmem
    · simp at hmem
    · simp at hmem
    · simp_all
    · simp at hmem
      exact absurd (hclean2 _ hmem) (by simp [Ev.isCleanEv])
    · simp at hmem
      exact absurd (hclean2 _ hmem) (by simp [Ev.isCleanEv])
    · simp at hmem
      exact absurd (hclean2 _ hmem) (by simp [Ev.isCleanEv])

theorem upload_end_failure_no_abort (env : Env) (boot0 : Nat)
    (hmem : Ev.otaEnd false ∈ (upload_post_handler env boot0).events) :
    (upload_post_handler env boot0).ok = false ∧
    Ev.otaAbort ∉ (upload_post_handler env boot0).events := by
  have hclean := recvLoop_finished_clean env.writeOk env.contentLen env.trace 0 true 0
  have hloop := recvLoop_evs_loop env.writeOk env.contentLen env.trace 0 true 0
  rw [List.all_eq_true] at hloop
  rcases heq : recvLoop env.writeOk env.contentLen env.trace 0 true 0 with
    ⟨evs, hist⟩ | ⟨evs, rcv, hist⟩
  · rw [heq] at hloop
    simp only [LoopOut.evs] at hloop
    unfold upload_post_handler at hmem ⊢
    rw [heq] at hmem ⊢
    simp only [] at hmem ⊢
    repeat' split at hmem
    · simp at hmem
    · simp at hmem
    · simp at hmem
      exact absurd (hloop _ hmem) (by simp [Ev.isLoopEv])
  · rw [heq] at hclean hloop
    simp only [LoopOut.isFailed, LoopOut.evs] at hclean hloop
    have hclean2 := hclean trivial
    rw [List.all_eq_true] at hclean2
    unfold upload_post_handler at hmem ⊢
    rw [heq] at hmem ⊢
    simp only [] at hmem ⊢
    repeat' split at hmem
    · simp at hmem
    · simp at hmem
    · simp at hmem
      exact absurd (hloop _ hmem) (by simp [Ev.isLoopEv])
    · constructor
      · simp_all
      · have habs : Ev.otaAbort ∉ evs := by
          intro hab
          exact absurd (hclean2 _ hab) (by simp [Ev.isCleanEv])
        simp_all
    · simp at hmem
      exact absurd (hloop _ hmem) (by simp [Ev.isLoopEv])
    · simp at hmem
      exact absurd (hloop _ hmem) (by simp [Ev.isLoopEv])

/-- Claim C2 (amended): an esp_ota_begin failure ends the session with an
error return and no abort (no handle is open yet); a failure of a checked
esp_ota_write (the first chunk's write) ends the session with an error and
esp_ota_abort is called before returning; an esp_ota_end failure ends the
session with an error but without any esp_ota_abort call; and the result
of esp_ota_write on subsequent chunks is ignored by line 339, so such a
failure does not end the session. -/
theorem upload_storage_failure_amended (env : Env) (boot0 : Nat) :
    (env.partsOk = true → env.beginOk = false →
      upload_post_handler env boot0 =
        { ok := false, events := [Ev.otaBegin false], boot := boot0, hist := [] }) ∧
    (∀ n, Ev.otaWrite n false true ∈ (upload_post_handler env boot0).events →
      (upload_post_handler env boot0).ok = false ∧
      Ev.otaAbort ∈ (upload_post_handler env boot0).events) ∧
    (Ev.otaEnd false ∈ (upload_post_handler env boot0).events →
      (upload_post_handler env boot0).ok = false ∧
      Ev.otaAbort ∉ (upload_post_handler env boot0).events) :=
  ⟨fun hp hb => upload_begin_failure env boot0 hp hb,
   fun n hmem => upload_checked_write_failure env boot0 n hmem,
   fun hmem => upload_end_failure_no_abort env boot0 hmem⟩

theorem upload_storage_failure_amended_witness :
    upload_post_handler envBeginFail 0 =
      { ok := false, events := [Ev.otaBegin false], boot := 0, hist := [] } :=
  (upload_storage_failure_amended envBeginFail 0).1 (by decide) (by decide)

/-- Claim C2 counterexample: in envWriteFail the second esp_ota_write call
(an unchecked one, line 339) fails, yet the handler returns success and
never calls esp_ota_abort: a partition-write failure on a subsequent
chunk does not end the session Failed. -/
theorem upload_write_failure_ignored_cex :
    (upload_post_handler envWriteFail 0).ok = true ∧
    Ev.otaWrite 4 false false ∈ (upload_post_handler envWriteFail 0).events ∧
    Ev.otaAbort ∉ (upload_post_handler envWriteFail 0).events := by
  decide

/-- Claim C3 (amended): when the first received chunk lacks the blank-line
boundary the session reaches Failed with exactly one abort — but only
after the partition write handle was allocated, since upload_post_handler
calls esp_ota_begin (line 292) before receiving any chunk. -/
theorem upload_no_boundary_fails_amended (env : Env) (boot0 : Nat)
    (bs : List Nat) (rest : List RecvR)
    (hp : env.partsOk = true) (hb : env.beginOk = true)
    (htr : env.trace = RecvR.data bs :: rest)
    (hn : bs.length ≠ 0) (hfind : findCRLF2 bs = none) (hpos : 0 < env.contentLen) :
    upload_post_handler env boot0 =
      { ok := false, events := [Ev.otaBegin true, Ev.recv bs.length, Ev.otaAbort],
        boot := boot0, hist := [] } := by
  unfold upload_post_handler
  rw [htr]
  simp [hp, hb, recvLoop, hpos, hn, hfind]

theorem upload_no_boundary_fails_amended_witness :
    upload_post_handler envNoBoundary 0 =
      { ok := false, events := [Ev.otaBegin true, Ev.recv 3, Ev.otaAbort],
        boot := 0, hist := [] } :=
  upload_no_boundary_fails_amended envNoBoundary 0 [65, 66, 67] [] (by decide) (by decide)
    (by decide) (by decide) (by decide) (by decide)

/-- Claim C3 counterexample: with a boundary-free first chunk the session
fails, but a partition had already been allocated: esp_ota_begin succeeded
in that very run before the failure, and the handle had to be aborted —
the failure does not occur before partition allocation. -/
theorem upload_no_boundary_after_alloc_cex :
    (upload_post_handler envNoBoundary 0).ok = false ∧
    Ev.otaBegin true ∈ (upload_post_handler envNoBoundary 0).events ∧
    Ev.otaAbort ∈ (upload_post_handler envNoBoundary 0).events := by
  decide

theorem unescapeGo_spec (limit : Nat) (src : List Nat) (di : Nat) :
    (unescapeGo limit src di).2 = di + (unescapeGo limit src di).1.length ∧
    (unescapeGo limit src di).1.length ≤ limit - di := by
  induction src, di using unescapeGo.induct limit
  all_goals simp only [unescapeGo]
  all_goals repeat' split
  all_goals try simp_all
  all_goals omega

/-- Claim C10: for any null-terminated source and dest_size of at least 1,
httpd_unescape_uri writes at most dest_size - 1 bytes ahead of the
terminator, always writes the terminating zero at the returned index, and
returns the count of bytes written, which is never negative — it has no
negative error return despite its documentation. -/
theorem unescape_uri_safe (src : List Nat) (destSize : Nat) (hds : 1 ≤ destSize) :
    (httpd_unescape_uri src destSize).1.length ≤ destSize ∧
    0 ≤ (httpd_unescape_uri src destSize).2 ∧
    (httpd_unescape_uri src destSize).2 =
      Int.ofNat ((httpd_unescape_uri src destSize).1.length - 1) ∧
    (httpd_unescape_uri src destSize).1[(httpd_unescape_uri src destSize).2.toNat]? =
      some 0 := by
  obtain ⟨h1, h2⟩ := unescapeGo_spec (destSize - 1) src 0
  unfold httpd_unescape_uri
  refine ⟨?_, ?_, ?_, ?_⟩
  · simp only [List.length_append, List.length_singleton]
    omega
  · exact Int.ofNat_nonneg _
  · simp only [List.length_append, List.length_singleton]
    exact congrArg Int.ofNat (by omega)
  · simp only [Int.toNat_ofNat]
    rw [h1]
    simpa using List.getElem?_concat_length _ _

theorem unescape_uri_safe_witness :
    (httpd_unescape_uri [97, 37, 50, 48, 98] 10).1.length ≤ 10 ∧
    0 ≤ (httpd_unescape_uri [97, 37, 50, 48, 98] 10).2 :=
  ⟨(unescape_uri_safe [97, 37, 50, 48, 98] 10 (by decide)).1,
   (unescape_uri_safe [97, 37, 50, 48, 98] 10 (by decide)).2.1⟩

theorem isDigit_ne_amp {c : Char} (h : c.isDigit = true) : (c == '&') = false := by
  cases hb : c == '&'
  · rfl
  · have hc : c = '&' := eq_of_beq hb
    subst hc
    exact absurd h (by decide)

theorem takeWhile_digits (ds : List Char) (hdig : ∀ c ∈ ds, c.isDigit = true) :
    ds.takeWhile (fun c => !(c == '&')) = ds := by
  induction ds with
  | nil => rfl
  | cons d t ih =>
    have hd := hdig d (by simp)
    have hne := isDigit_ne_amp hd
    have hstep : (d :: t).takeWhile (fun c => !(c == '&')) =
        d :: t.takeWhile (fun c => !(c == '&')) := by
      simp [List.takeWhile_cons, hne]
    rw [hstep, ih (fun c hc => hdig c (by simp [hc]))]

theorem isDigit_not_space {c : Char} (h : c.isDigit = true) : isSpaceCh c = false := by
  cases hs : isSpaceCh c
  · rfl
  · exfalso
    simp only [isSpaceCh, Bool.or_eq_true, beq_iff_eq] at hs
    rcases hs with ((((h1 | h1) | h1) | h1) | h1) | h1 <;> subst h1 <;>
      exact absurd h (by decide)

theorem atolDigits_eq_foldl (ds : List Char) (hdig : ∀ c ∈ ds, c.isDigit = true) :
    ∀ acc, atolDigits ds acc = ds.foldl (fun a c => a * 10 + (c.toNat - 48)) acc := by
  induction ds with
  | nil => intro acc; rfl
  | cons d t ih =>
    intro acc
    have hd := hdig d (by simp)
    simp only [atolDigits, hd, if_true, List.foldl_cons]
    exact ih (fun c hc => hdig c (by simp [hc])) _

theorem atol_digits (d : Char) (t : List Char)
    (hdig : ∀ c ∈ d :: t, c.isDigit = true) :
    atol (d :: t) = Int.ofNat (digitsVal (d :: t)) := by
  have hd := hdig d (by simp)
  have hsp := isDigit_not_space hd
  unfold atol
  rw [List.dropWhile_cons]
  simp only [hsp, Bool.false_eq_true, if_false]
  split
  · rename_i r heq
    rw [List.cons.injEq] at heq
    obtain ⟨h1, -⟩ := heq
    subst h1
    exact absurd hd (by decide)
  · rename_i r heq
    rw [List.cons.injEq] at heq
    obtain ⟨h1, -⟩ := heq
    subst h1
    exact absurd hd (by decide)
  · exact congrArg Int.ofNat (atolDigits_eq_foldl _ hdig 0)

theorem query_serial (ds : List Char) (hdig : ∀ c ∈ ds, c.isDigit = true) :
    httpd_query_key_value (serialKey ++ '=' :: ds) serialKey = some ds := by
  have hassoc : serialKey ++ '=' :: ds = (serialKey ++ ['=']) ++ ds := by simp
  have hpre : (serialKey ++ ['=']).isPrefixOf (serialKey ++ '=' :: ds) = true := by
    rw [List.isPrefixOf_iff_prefix, hassoc]
    exact List.prefix_append _ _
  have hdrop : (serialKey ++ '=' :: ds).drop (serialKey.length + 1) = ds := by
    rw [hassoc]
    have hlen : (serialKey ++ ['=']).length = serialKey.length + 1 := by simp
    rw [← hlen, List.drop_left]
  unfold httpd_query_key_value
  rw [if_pos hpre, hdrop, takeWhile_digits ds hdig]

/-- Claim C7: a POST /settings body carrying the key serial with a numeric
value, followed by GET /settings, renders exactly that value: the value
stored through set_serial_nbr is the value read back through
get_serial_nbr and interpolated into the settings page.  The settings
store itself is modelled from the spec, settings.c being absent from the
sources; values are kept below 2^31 so that atol and the unsigned long
conversion stay within contract. -/
theorem settings_serial_roundtrip (ds : List Char) (st : SettingsStore)
    (hne : ds ≠ []) (hdig : ∀ c ∈ ds, c.isDigit = true)
    (hlen : ds.length ≤ 63) (hval : digitsVal ds < 2 ^ 31) :
    settings_get_handler ((settings_post_handler (serialKey ++ '=' :: ds) st).2) =
      digitsVal ds := by
  rcases ds with _ | ⟨d, t⟩
  · exact absurd rfl hne
  have hlen0 : ¬((serialKey ++ '=' :: d :: t).length = 0) := by simp
  have h511 : (serialKey ++ '=' :: d :: t).length ≤ 511 := by
    simp only [List.length_append, List.length_cons] at hlen ⊢
    simp [serialKey]
    omega
  have h64 : (d :: t).length < 64 := by
    simp only [List.length_cons] at hlen ⊢
    omega
  unfold settings_post_handler
  rw [if_neg hlen0, List.take_of_length_le h511, query_serial _ hdig]
  simp only [h64, if_true, atol_digits d t hdig]
  unfold settings_get_handler get_serial_nbr set_serial_nbr
  simp only []
  have h0 : (0 : Int) ≤ Int.ofNat (digitsVal (d :: t)) := Int.ofNat_nonneg _
  have hlt : Int.ofNat (digitsVal (d :: t)) < (2 : Int) ^ 32 := by
    have h31 := hval
    simp only [Int.ofNat_eq_coe]
    omega
  rw [Int.emod_eq_of_lt h0 hlt]
  simp

theorem settings_serial_roundtrip_witness :
    digitsVal ['1', '2', '3', '4', '5'] < 2 ^ 31 ∧
    settings_get_handler
      ((settings_post_handler (serialKey ++ '=' :: ['1', '2', '3', '4', '5']) ⟨0⟩).2) =
      12345 := by
  constructor
  · decide
  · rw [settings_serial_roundtrip ['1', '2', '3', '4', '5'] ⟨0⟩ (by decide) (by decide)
      (by decide) (by decide)]
    decide
